import Mathlib

/-!
# BallSimulationGL: the simulation engine of `src/simulator.cpp`

A shallow embedding of `BallSimulator::World` and `BallSimulator::Ball`.

Conventions of the embedding.

* The C++ `float` is read as exact arithmetic in a linearly ordered field `K`
  (the definitions are generic and run on `ℚ`; the theorems hold in particular
  on `ℝ`).  Rounding is not modelled.
* Every `/` of the source is the fallible `fdiv`: a zero denominator yields
  `SimError.divisionByZero` instead of a number.
* `abs` and `std::abs` are the absolute value of a `float`.
* `std::sqrt`, used by `vec2f::length`, is a parameter `sqrt : K → K`; the
  theorems that need it assume it is a square root on the non-negative numbers.
* The header `simulator.h` is not part of the sources: `Epsilon`,
  `IMPULSE_MULTIPLIER`, `RAND_MAX` and the gravity are parameters, the
  operations of `vec2f` are modelled from their use, and
  `CollisionQuadtree::retrieve` is a parameter of the quadtree pass.
* `Ball*` pointers into `World::_entities` are indices into the list of balls,
  so that `a.collide(a)` (one object on both sides) is expressible.
-/

namespace BallSimulator

/-- The only way an arithmetic step of the engine is undefined. -/
inductive SimError where
  | divisionByZero : SimError
  deriving DecidableEq, Repr

/-- The `/` of the source on numbers: undefined for a zero denominator. -/
def fdiv {K : Type} [LinearOrderedField K] (a b : K) : Except SimError K :=
  if b = 0 then Except.error SimError.divisionByZero else Except.ok (a / b)

/-- Modelled from the spec: `vec2f` of `simulator.h` (not in the sources), "a 2D
floating-point vector with arithmetic, dot product, length, and normalization". -/
@[ext]
structure vec2f (K : Type) where
  x : K
  y : K
  deriving DecidableEq, Repr

namespace vec2f

variable {K : Type} [LinearOrderedField K]

/-- Modelled from the spec: the default constructor `vec2f()` of the missing header,
read as the zero vector. -/
def zero : vec2f K := { x := 0, y := 0 }

/-- Modelled from the spec: the vector sum `a + b` of the missing header. -/
def add (a b : vec2f K) : vec2f K := { x := a.x + b.x, y := a.y + b.y }

/-- Modelled from the spec: the vector difference `a - b` of the missing header. -/
def sub (a b : vec2f K) : vec2f K := { x := a.x - b.x, y := a.y - b.y }

/-- Modelled from the spec: the unary `-a` of the missing header. -/
def neg (a : vec2f K) : vec2f K := { x := -a.x, y := -a.y }

/-- Modelled from the spec: the product `a * k` with a scalar `k` of the missing
header. -/
def scale (a : vec2f K) (k : K) : vec2f K := { x := a.x * k, y := a.y * k }

/-- Modelled from the spec: the dot product `vec2f::dot(a, b)` of the missing header. -/
def dot (a b : vec2f K) : K := a.x * b.x + a.y * b.y

/-- Modelled from the spec: the length `a.length()` of the missing header, the square
root of `dot(a, a)`. -/
def length (sqrt : K → K) (a : vec2f K) : K := sqrt (dot a a)

/-- Modelled from the spec: the normalization `a.normalize()` of the missing header,
`a` divided by its length. -/
def normalize (sqrt : K → K) (a : vec2f K) : Except SimError (vec2f K) := do
  let nx ← fdiv a.x (length sqrt a)
  let ny ← fdiv a.y (length sqrt a)
  pure { x := nx, y := ny }

end vec2f

/-- The fields of `Ball`: `_mass`, `_radius`, `_position`, `_velocity` and the
public flag `isInsideCollision`. -/
structure Ball (K : Type) where
  mass : K
  radius : K
  position : vec2f K
  velocity : vec2f K
  isInsideCollision : Bool
  deriving DecidableEq, Repr

namespace Ball

variable {K : Type} [LinearOrderedField K]

/-- The constructor `Ball::Ball(float mass, float radius)`.  The flag is not
initialised by the source; it is read here as `false`. -/
def new2 (mass radius : K) : Ball K :=
  { mass := mass, radius := radius, position := vec2f.zero, velocity := vec2f.zero,
    isInsideCollision := false }

/-- The constructor `Ball::Ball(float mass, float radius, vec2f& position)`. -/
def new3 (mass radius : K) (position : vec2f K) : Ball K :=
  { mass := mass, radius := radius, position := position, velocity := vec2f.zero,
    isInsideCollision := false }

/-- The constructor `Ball::Ball(float mass, float radius, vec2f& position, vec2f& velocity)`. -/
def new4 (mass radius : K) (position velocity : vec2f K) : Ball K :=
  { mass := mass, radius := radius, position := position, velocity := velocity,
    isInsideCollision := false }

/-- The method `Ball::collides`, with `Epsilon` as `eps`. -/
def collides (eps : K) (self other : Ball K) : Bool :=
  let diffX := self.position.x - other.position.x
  let diffY := self.position.y - other.position.y
  let totalRadius := self.radius + other.radius
  let radiusSquared := totalRadius * totalRadius
  let distanceSquared := diffX * diffX + diffY * diffY
  decide (radiusSquared - distanceSquared > eps)

end Ball

/-- What one call of `Ball::collide` writes: nothing (the `return` after the
tangency test), the two positions (the `return` after `velocityNumber > Epsilon`),
or the two positions and the two velocities. -/
inductive CollideOutcome (K : Type) where
  | untouched : CollideOutcome K
  | moved (targetPositionA targetPositionB : vec2f K) : CollideOutcome K
  | bounced (targetPositionA targetPositionB targetVelocityA targetVelocityB : vec2f K) :
      CollideOutcome K

namespace Ball

variable {K : Type} [LinearOrderedField K]

/-- The source's `minimumTranslationDistance` of `Ball::collide` (up to the line
that defines it), `none` when the method has returned at the tangency test. -/
def minimumTranslationDistance (eps : K) (sqrt : K → K) (self other : Ball K) :
    Except SimError (Option (vec2f K)) := do
  let totalRadius := self.radius + other.radius
  let delta := vec2f.sub self.position other.position
  let distance := vec2f.length sqrt delta
  if |totalRadius * totalRadius - vec2f.dot delta delta| < eps then
    pure none
  else
    let isOnTopOfEachOther := decide (|distance| ≤ eps)
    let distance := if isOnTopOfEachOther then other.radius + self.radius - 1 else distance
    let delta : vec2f K :=
      if isOnTopOfEachOther then { x := other.radius + self.radius, y := 0 } else delta
    let factor ← fdiv (self.radius + other.radius - distance) distance
    pure (some (vec2f.scale delta factor))

/-- The values `Ball::collide` computes from the two balls as they are when it
is entered, with `IMPULSE_MULTIPLIER` as `imp`.  `normalize` is read as
returning the normalised vector without changing its receiver. -/
def collideOutcome (eps imp : K) (sqrt : K → K) (self other : Ball K) :
    Except SimError (CollideOutcome K) := do
  match ← minimumTranslationDistance eps sqrt self other with
  | none => pure CollideOutcome.untouched
  | some mtd =>
    let inverseMassA ← fdiv 1 self.mass
    let inverseMassB ← fdiv 1 other.mass
    let inverseMassTotal := inverseMassA + inverseMassB
    let shareA ← fdiv inverseMassA inverseMassTotal
    let targetPositionA := vec2f.add self.position (vec2f.scale mtd shareA)
    let shareB ← fdiv inverseMassB inverseMassTotal
    let targetPositionB := vec2f.sub other.position (vec2f.scale mtd shareB)
    let impactSpeed := vec2f.sub self.velocity other.velocity
    let normal ← vec2f.normalize sqrt mtd
    let velocityNumber := vec2f.dot impactSpeed normal
    if velocityNumber > eps then
      pure (CollideOutcome.moved targetPositionA targetPositionB)
    else
      let quotient ← fdiv velocityNumber inverseMassTotal
      let impulseFactor := -quotient
      let impulse := vec2f.scale (vec2f.scale normal impulseFactor) imp
      let deltaVelocityA := vec2f.scale impulse inverseMassA
      let deltaVelocityB := vec2f.neg (vec2f.scale impulse inverseMassB)
      let targetVelocityA := vec2f.add self.velocity deltaVelocityA
      let targetVelocityB := vec2f.add other.velocity deltaVelocityB
      pure (CollideOutcome.bounced targetPositionA targetPositionB targetVelocityA targetVelocityB)

/-- The method `Ball::collide` on two distinct objects: the pair after the call. -/
def collide (eps imp : K) (sqrt : K → K) (self other : Ball K) :
    Except SimError (Ball K × Ball K) := do
  match ← collideOutcome eps imp sqrt self other with
  | CollideOutcome.untouched => pure (self, other)
  | CollideOutcome.moved pA pB =>
    pure ({ self with position := pA }, { other with position := pB })
  | CollideOutcome.bounced pA pB vA vB =>
    pure ({ self with position := pA, velocity := vA },
          { other with position := pB, velocity := vB })

/-- The source's `position().set(p)`. -/
def setPosition (p : vec2f K) (b : Ball K) : Ball K := { b with position := p }

/-- The source's `velocity().set(v)`. -/
def setVelocity (v : vec2f K) (b : Ball K) : Ball K := { b with velocity := v }

/-- The source's `ball->isInsideCollision = colliding`. -/
def setInsideCollision (c : Bool) (b : Ball K) : Ball K := { b with isInsideCollision := c }

/-- The method `Ball::apply_gravity`, with `world.gravity()` as `gravity`. -/
def apply_gravity (eps gravity divisor : K) (b : Ball K) : Except SimError (Ball K) :=
  if |gravity| > eps then do
    let step ← fdiv gravity divisor
    pure { b with velocity := { x := b.velocity.x, y := b.velocity.y + step } }
  else
    pure b

/-- The method `Ball::apply_velocity`. -/
def apply_velocity (eps divisor : K) (b : Ball K) : Except SimError (Ball K) := do
  let b1 ←
    if |b.velocity.x| < eps then
      pure { b with velocity := { x := 0, y := b.velocity.y } }
    else do
      let delta ← fdiv b.velocity.x divisor
      pure { b with position := { x := b.position.x + delta, y := b.position.y } }
  if |b1.velocity.y| < eps then
    pure { b1 with velocity := { x := b1.velocity.x, y := 0 } }
  else do
    let delta ← fdiv b1.velocity.y divisor
    pure { b1 with position := { x := b1.position.x, y := b1.position.y + delta } }

/-- The method `Ball::check_world_boundary`, with `world.width()` and
`world.height()` as `width` and `height`. -/
def check_world_boundary (eps width height : K) (b : Ball K) : Ball K :=
  let r2 := b.radius
  let b1 : Ball K :=
    if b.position.x - r2 < eps then
      { b with position := { x := r2, y := b.position.y },
               velocity := { x := -b.velocity.x, y := b.velocity.y } }
    else if b.position.x + r2 > width then
      { b with position := { x := width - r2, y := b.position.y },
               velocity := { x := -b.velocity.x, y := b.velocity.y } }
    else b
  if b1.position.y - r2 < eps then
    { b1 with position := { x := b1.position.x, y := r2 },
              velocity := { x := b1.velocity.x, y := -b1.velocity.y } }
  else if b1.position.y + r2 > height then
    { b1 with position := { x := b1.position.x, y := height - r2 },
              velocity := { x := b1.velocity.x, y := -b1.velocity.y } }
  else b1

end Ball

/-- Modelled from the spec: `Rectangle<Ball*>` of the missing header, the spec's
`AxisAlignedBox` with fields `x, y, w, h` and `value`: a corner, two signed extents,
and the ball it belongs to (its index among the entities). -/
structure Rectangle (K : Type) where
  x : K
  y : K
  w : K
  h : K
  value : ℕ
  deriving DecidableEq, Repr

/-- The method `Ball::rect` of the ball stored at index `self`. -/
def Ball.rect {K : Type} [LinearOrderedField K] (b : Ball K) (self : ℕ) : Rectangle K :=
  let left := b.position.x - b.radius
  let top := b.position.y + b.radius
  let right := b.position.x + b.radius
  let bottom := b.position.y - b.radius
  { x := left, y := top, w := right - left, h := bottom - top, value := self }

/-- Modelled from the spec: `CollisionQuadtree::retrieve` (the class is not in the
sources) on a tree whose root has not split: "at each node first appending all of
that node's directly-held objects to outList", so every stored box, in the
order of insertion. -/
def retrieveRoot {K : Type} (stored : List (Rectangle K)) (_box : Rectangle K) :
    List (Rectangle K) :=
  stored

/-- The state of `World` the engine reads and writes: `_width`, `_height`,
`_gravity` and the balls `_entities` points to.  `_width` and `_height` are the
values `resize` has stored; the constructor does not set them. -/
structure World (K : Type) where
  width : K
  height : K
  gravity : K
  entities : List (Ball K)

section Passes

variable {K : Type} [LinearOrderedField K]

/-- The call `ballA->collide(*ballB)` on the balls stored at `i` and `j`, which may
be one ball: the writes happen in the source's order, positions first. -/
def collideAt (eps imp : K) (sqrt : K → K) (balls : List (Ball K)) (i j : ℕ) :
    Except SimError (List (Ball K)) :=
  match balls[i]?, balls[j]? with
  | some ballA, some ballB => do
    match ← Ball.collideOutcome eps imp sqrt ballA ballB with
    | CollideOutcome.untouched => pure balls
    | CollideOutcome.moved pA pB =>
      pure (List.modify (Ball.setPosition pB) j (List.modify (Ball.setPosition pA) i balls))
    | CollideOutcome.bounced pA pB vA vB =>
      pure (List.modify (Ball.setVelocity vB) j (List.modify (Ball.setVelocity vA) i
        (List.modify (Ball.setPosition pB) j (List.modify (Ball.setPosition pA) i balls))))
  | _, _ => pure balls

/-- One round of an inner loop: `if (a->collides(*b)) { a->collide(*b); colliding = true; }`
for the balls at `i` and `j`. -/
def narrowPhase (eps imp : K) (sqrt : K → K) (i : ℕ) (st : List (Ball K) × Bool) (j : ℕ) :
    Except SimError (List (Ball K) × Bool) :=
  match st.1[i]?, st.1[j]? with
  | some ballA, some ballB =>
    if Ball.collides eps ballA ballB then do
      let balls ← collideAt eps imp sqrt st.1 i j
      pure (balls, true)
    else pure st
  | _, _ => pure st

/-- The function `DoQuadtreeCollisionDetection`.  `retrieve stored box` stands for
`tree->retrieve(&queued, box)` on the tree that holds the boxes `stored`,
inserted in that order. -/
def DoQuadtreeCollisionDetection (eps imp : K) (sqrt : K → K)
    (retrieve : List (Rectangle K) → Rectangle K → List (Rectangle K))
    (entities : List (Ball K)) : Except SimError (List (Ball K)) :=
  let array := (List.enum entities).map (fun p => Ball.rect p.2 p.1)
  array.foldlM
    (fun balls rect => do
      let queued := retrieve array rect
      let st ← queued.foldlM
        (fun st bb => narrowPhase eps imp sqrt rect.value st bb.value) (balls, false)
      pure (List.modify (Ball.setInsideCollision st.2) rect.value st.1))
    entities

/-- The function `DoSimpleCollisionDetection`. -/
def DoSimpleCollisionDetection (eps imp : K) (sqrt : K → K)
    (entities : List (Ball K)) : Except SimError (List (Ball K)) :=
  (List.range entities.length).foldlM
    (fun balls i => do
      let st ← (List.range' (i + 1) (entities.length - (i + 1))).foldlM
        (fun st j => narrowPhase eps imp sqrt i st j) (balls, false)
      pure (List.modify (Ball.setInsideCollision st.2) i st.1))
    entities

/-- The method `World::check_collisions`. -/
def World.check_collisions (eps imp : K) (sqrt : K → K)
    (retrieve : List (Rectangle K) → Rectangle K → List (Rectangle K))
    (world : World K) (divisor : K) : Except SimError (World K) := do
  let integrated ← world.entities.mapM
    (fun ball => do
      let ball1 ← Ball.apply_gravity eps world.gravity divisor ball
      Ball.apply_velocity eps divisor ball1)
  let collided ← DoQuadtreeCollisionDetection eps imp sqrt retrieve integrated
  pure { world with
    entities := collided.map (Ball.check_world_boundary eps world.width world.height) }

/-- The method `World::tick`. -/
def World.tick (eps imp : K) (sqrt : K → K)
    (retrieve : List (Rectangle K) → Rectangle K → List (Rectangle K))
    (world : World K) (divisor : K) : Except SimError (World K) :=
  World.check_collisions eps imp sqrt retrieve world divisor

end Passes

/-! ## Arithmetic and monad helpers -/

section Helpers

variable {K : Type} [LinearOrderedField K]

theorem fdiv_ok (a : K) {b : K} (hb : b ≠ 0) : fdiv a b = Except.ok (a / b) := by
  simp [fdiv, hb]

theorem fdiv_zero (a : K) : fdiv a (0 : K) = Except.error SimError.divisionByZero := by
  simp [fdiv]

theorem error_eq (e : SimError) : e = SimError.divisionByZero := by
  cases e; rfl

theorem ok_bind {ε α β : Type} (a : α) (f : α → Except ε β) :
    (Except.ok a >>= f) = f a := rfl

theorem error_bind {ε α β : Type} (e : ε) (f : α → Except ε β) :
    ((Except.error e : Except ε α) >>= f) = Except.error e := rfl

theorem pure_eq_ok {ε α : Type} (a : α) : (pure a : Except ε α) = Except.ok a := rfl

theorem map_error {ε α β : Type} (f : α → β) (e : ε) :
    (f <$> (Except.error e : Except ε α)) = Except.error e := rfl

end Helpers

/-! ## Claims -/

/-- Claim C3: `collides` is symmetric, and it holds exactly when the squared
sum of the radii minus the squared distance of the centres exceeds `Epsilon`. -/
theorem collides_symm_iff {K : Type} [LinearOrderedField K] (eps : K) (a b : Ball K) :
    Ball.collides eps a b = Ball.collides eps b a ∧
    (Ball.collides eps a b = true ↔
      (a.radius + b.radius) ^ 2
        - ((a.position.x - b.position.x) ^ 2 + (a.position.y - b.position.y) ^ 2) > eps) := by
  constructor
  · simp only [Ball.collides]
    congr 1
    apply propext
    have h : (a.radius + b.radius) * (a.radius + b.radius)
        - ((a.position.x - b.position.x) * (a.position.x - b.position.x)
          + (a.position.y - b.position.y) * (a.position.y - b.position.y))
        = (b.radius + a.radius) * (b.radius + a.radius)
        - ((b.position.x - a.position.x) * (b.position.x - a.position.x)
          + (b.position.y - a.position.y) * (b.position.y - a.position.y)) := by ring
    rw [h]
  · simp only [Ball.collides, decide_eq_true_eq, pow_two]

/-- Claim C5: `check_world_boundary` puts a ball that is past the left wall at
`x = radius`, one past the right wall at `x = width - radius`, negating `vx` in
both cases, and leaves `x` and `vx` alone otherwise; `y` and `vy` are handled the
same way against the height, whatever happened on `x`; a zero `vy` stays zero. -/
theorem check_world_boundary_reflects {K : Type} [LinearOrderedField K]
    (eps width height : K) (b : Ball K) :
    (b.position.x - b.radius < eps →
        (Ball.check_world_boundary eps width height b).position.x = b.radius ∧
        (Ball.check_world_boundary eps width height b).velocity.x = -b.velocity.x) ∧
    (¬ b.position.x - b.radius < eps → b.position.x + b.radius > width →
        (Ball.check_world_boundary eps width height b).position.x = width - b.radius ∧
        (Ball.check_world_boundary eps width height b).velocity.x = -b.velocity.x) ∧
    (¬ b.position.x - b.radius < eps → ¬ b.position.x + b.radius > width →
        (Ball.check_world_boundary eps width height b).position.x = b.position.x ∧
        (Ball.check_world_boundary eps width height b).velocity.x = b.velocity.x) ∧
    (b.position.y - b.radius < eps →
        (Ball.check_world_boundary eps width height b).position.y = b.radius ∧
        (Ball.check_world_boundary eps width height b).velocity.y = -b.velocity.y) ∧
    (¬ b.position.y - b.radius < eps → b.position.y + b.radius > height →
        (Ball.check_world_boundary eps width height b).position.y = height - b.radius ∧
        (Ball.check_world_boundary eps width height b).velocity.y = -b.velocity.y) ∧
    (¬ b.position.y - b.radius < eps → ¬ b.position.y + b.radius > height →
        (Ball.check_world_boundary eps width height b).position.y = b.position.y ∧
        (Ball.check_world_boundary eps width height b).velocity.y = b.velocity.y) ∧
    (b.velocity.y = 0 → (Ball.check_world_boundary eps width height b).velocity.y = 0) ∧
    (Ball.check_world_boundary eps width height b).mass = b.mass ∧
    (Ball.check_world_boundary eps width height b).radius = b.radius := by
  unfold Ball.check_world_boundary
  by_cases hx1 : b.position.x - b.radius < eps <;>
  by_cases hx2 : b.position.x + b.radius > width <;>
  by_cases hy1 : b.position.y - b.radius < eps <;>
  by_cases hy2 : b.position.y + b.radius > height <;>
  simp [hx1, hx2, hy1, hy2]

/-- A ball of radius 5 that has crossed the left wall with velocity `(-3, 0)` ends
at `x = 5` with velocity `(3, 0)`. -/
theorem check_world_boundary_reflects_witness :
    (Ball.check_world_boundary (1 / 10000 : ℚ) 100 100
        (Ball.new4 1 5 { x := 2, y := 50 } { x := -3, y := 0 })).position.x = 5 ∧
    (Ball.check_world_boundary (1 / 10000 : ℚ) 100 100
        (Ball.new4 1 5 { x := 2, y := 50 } { x := -3, y := 0 })).velocity.x = - -3 ∧
    (Ball.check_world_boundary (1 / 10000 : ℚ) 100 100
        (Ball.new4 1 5 { x := 2, y := 50 } { x := -3, y := 0 })).velocity.y = 0 :=
  ⟨((check_world_boundary_reflects (1 / 10000 : ℚ) 100 100
      (Ball.new4 1 5 { x := 2, y := 50 } { x := -3, y := 0 })).1
      (by norm_num [Ball.new4])).1,
   ((check_world_boundary_reflects (1 / 10000 : ℚ) 100 100
      (Ball.new4 1 5 { x := 2, y := 50 } { x := -3, y := 0 })).1
      (by norm_num [Ball.new4])).2,
   (check_world_boundary_reflects (1 / 10000 : ℚ) 100 100
      (Ball.new4 1 5 { x := 2, y := 50 } { x := -3, y := 0 })).2.2.2.2.2.2.1 rfl⟩

/-! ## `World::scatter` and `World::resize` -/

section ScatterHelpers
variable {K : Type} [LinearOrderedField K]

end ScatterHelpers

section Validation

variable {K : Type} [LinearOrderedField K]

theorem mapM_error_of_mem {α β : Type} (f : α → Except SimError β) :
    ∀ (l : List α), (∃ b ∈ l, ∃ e, f b = Except.error e) →
      l.mapM f = Except.error SimError.divisionByZero := by
  intro l
  induction l with
  | nil => rintro ⟨b, hb, _⟩; cases hb
  | cons a t ih =>
    rintro ⟨b, hb, e, he⟩
    rw [List.mapM_cons]
    cases hfa : f a with
    | error e1 => rw [error_bind, error_eq e1]
    | ok a1 =>
      rw [ok_bind]
      have hbt : b ∈ t := by
        rcases List.mem_cons.mp hb with rfl | h
        · rw [hfa] at he; cases he
        · exact h
      rw [ih ⟨b, hbt, e, he⟩, error_bind]

theorem integrate_zero_divisor_of_gravity (eps gravity : K) (b : Ball K)
    (hg : eps < |gravity|) :
    (Ball.apply_gravity eps gravity 0 b >>= Ball.apply_velocity eps 0)
      = Except.error SimError.divisionByZero := by
  simp only [Ball.apply_gravity, gt_iff_lt, hg, if_true, fdiv_zero, error_bind]

theorem integrate_zero_divisor_of_velocity (eps gravity : K) (b : Ball K)
    (hv : eps ≤ |b.velocity.x| ∨ eps ≤ |b.velocity.y|) :
    (Ball.apply_gravity eps gravity 0 b >>= Ball.apply_velocity eps 0)
      = Except.error SimError.divisionByZero := by
  by_cases hg : eps < |gravity|
  · exact integrate_zero_divisor_of_gravity eps gravity b hg
  · simp only [Ball.apply_gravity, gt_iff_lt, hg, if_false, pure_eq_ok, ok_bind,
      Ball.apply_velocity]
    by_cases hx : |b.velocity.x| < eps
    · have hy : ¬ |b.velocity.y| < eps := by
        rcases hv with h | h
        · exact absurd hx (not_lt.mpr h)
        · exact not_lt.mpr h
      simp only [hx, if_true, ok_bind, hy, if_false, fdiv_zero, error_bind]
    · simp only [hx, if_false, fdiv_zero, error_bind]

theorem check_collisions_zero_divisor (eps imp : K)
    (sqrt : K → K) (retrieve : List (Rectangle K) → Rectangle K → List (Rectangle K))
    (world : World K)
    (h : (world.entities ≠ [] ∧ eps < |world.gravity|) ∨
      (∃ b ∈ world.entities, eps ≤ |b.velocity.x| ∨ eps ≤ |b.velocity.y|)) :
    World.check_collisions eps imp sqrt retrieve world 0
      = Except.error SimError.divisionByZero := by
  have hmap : world.entities.mapM (fun ball =>
      Ball.apply_gravity eps world.gravity 0 ball >>= Ball.apply_velocity eps 0)
      = Except.error SimError.divisionByZero := by
    apply mapM_error_of_mem
    rcases h with ⟨hne, hg⟩ | ⟨b, hb, hv⟩
    · obtain ⟨b, hb⟩ := List.exists_mem_of_ne_nil _ hne
      exact ⟨b, hb, _, integrate_zero_divisor_of_gravity eps world.gravity b hg⟩
    · exact ⟨b, hb, _, integrate_zero_divisor_of_velocity eps world.gravity b hv⟩
  unfold World.check_collisions
  exact congrArg (fun r => r >>= _) hmap

end Validation

/-- Claim C8 (amended): `tick` does not look at its divisor.  With divisor 0 it
divides by zero as soon as the world has a ball and the gravity exceeds `Epsilon`
in magnitude, or some ball has a velocity component of magnitude at least
`Epsilon`. -/
theorem tick_zero_divides_by_zero {K : Type} [LinearOrderedField K] (eps imp : K)
    (sqrt : K → K) (retrieve : List (Rectangle K) → Rectangle K → List (Rectangle K))
    (world : World K)
    (h : (world.entities ≠ [] ∧ eps < |world.gravity|) ∨
      (∃ b ∈ world.entities, eps ≤ |b.velocity.x| ∨ eps ≤ |b.velocity.y|)) :
    World.tick eps imp sqrt retrieve world 0 = Except.error SimError.divisionByZero :=
  check_collisions_zero_divisor eps imp sqrt retrieve world h

/-- A world with gravity `1/2` and one ball at rest: `tick(0)` divides by zero. -/
theorem tick_zero_divides_by_zero_witness :
    World.tick (1 / 10000 : ℚ) 1 Rat.sqrt retrieveRoot
      { width := 100, height := 100, gravity := 1 / 2,
        entities := [Ball.new3 1 5 { x := 50, y := 50 }] } 0
      = Except.error SimError.divisionByZero :=
  tick_zero_divides_by_zero (1 / 10000 : ℚ) 1 Rat.sqrt retrieveRoot
    { width := 100, height := 100, gravity := 1 / 2,
      entities := [Ball.new3 1 5 { x := 50, y := 50 }] }
    (Or.inl ⟨by simp, by norm_num [abs_of_pos]⟩)

/-- Claim C8 as stated fails: in a world without gravity, `tick(0)` on a ball moving
with velocity `(5, 0)` is not rejected and is no no-op; `apply_velocity` divides
`5` by the zero divisor. -/
theorem tick_zero_is_not_rejected :
    Ball.apply_velocity (1 / 10000 : ℚ) 0 (Ball.new4 1 5 { x := 50, y := 50 } { x := 5, y := 0 })
      = Except.error SimError.divisionByZero ∧
    World.tick (1 / 10000 : ℚ) 1 Rat.sqrt retrieveRoot
      { width := 100, height := 100, gravity := 0,
        entities := [Ball.new4 1 5 { x := 50, y := 50 } { x := 5, y := 0 }] } 0
      = Except.error SimError.divisionByZero := by
  constructor
  · norm_num [Ball.apply_velocity, Ball.new4, fdiv, error_bind, abs_of_pos]
  · exact check_collisions_zero_divisor _ _ _ _ _
      (Or.inr ⟨_, List.mem_singleton.mpr rfl, Or.inl (by norm_num [Ball.new4, abs_of_pos])⟩)

section ZeroMass

variable {K : Type} [LinearOrderedField K]

theorem collide_zero_mass (eps imp : K) (sqrt : K → K) (a b : Ball K)
    (hm : a.mass = 0 ∨ b.mass = 0) :
    Ball.collide eps imp sqrt a b = Except.error SimError.divisionByZero ∨
    Ball.collide eps imp sqrt a b = Except.ok (a, b) := by
  unfold Ball.collide Ball.collideOutcome
  cases h : Ball.minimumTranslationDistance eps sqrt a b with
  | error e =>
    left
    rw [error_eq e]
    rfl
  | ok o =>
    cases o with
    | none => right; rfl
    | some m =>
      left
      simp only [ok_bind]
      by_cases ha : a.mass = 0
      · rw [ha, fdiv_zero]; rfl
      · have hb : b.mass = 0 := hm.resolve_left ha
        rw [fdiv_ok _ ha, hb, fdiv_zero]; rfl

end ZeroMass

/-- Claim C9 (amended): the constructors of `Ball` check nothing; for every mass,
zero included, they return a ball that stores that mass and radius.  When a ball
of mass zero is handed to `collide`, on either side, the call either divides by
zero or is the early return at the tangency test that changes nothing. -/
theorem constructors_accept_every_mass {K : Type} [LinearOrderedField K]
    (eps imp : K) (sqrt : K → K) (mass radius : K) (position velocity : vec2f K)
    (other : Ball K) :
    (Ball.new2 mass radius).mass = mass ∧ (Ball.new2 mass radius).radius = radius ∧
    (Ball.new3 mass radius position).mass = mass ∧
    (Ball.new3 mass radius position).radius = radius ∧
    (Ball.new4 mass radius position velocity).mass = mass ∧
    (Ball.new4 mass radius position velocity).radius = radius ∧
    (Ball.collide eps imp sqrt (Ball.new4 0 radius position velocity) other
        = Except.error SimError.divisionByZero ∨
      Ball.collide eps imp sqrt (Ball.new4 0 radius position velocity) other
        = Except.ok (Ball.new4 0 radius position velocity, other)) ∧
    (Ball.collide eps imp sqrt other (Ball.new4 0 radius position velocity)
        = Except.error SimError.divisionByZero ∨
      Ball.collide eps imp sqrt other (Ball.new4 0 radius position velocity)
        = Except.ok (other, Ball.new4 0 radius position velocity)) :=
  ⟨rfl, rfl, rfl, rfl, rfl, rfl,
    collide_zero_mass eps imp sqrt _ other (Or.inl rfl),
    collide_zero_mass eps imp sqrt other _ (Or.inr rfl)⟩

/-- Claim C9 as stated fails: `Ball(0, 5)` is constructed without complaint and has
mass 0; overlapping a ball of mass 1 six units away, it reaches `1.0f / mass()` in
`collide`, a division by zero. -/
theorem zero_mass_is_not_rejected :
    (Ball.new2 (0 : ℚ) 5).mass = 0 ∧
    Ball.collide (1 / 10000 : ℚ) 1 Rat.sqrt (Ball.new2 0 5) (Ball.new3 1 5 { x := 6, y := 0 })
      = Except.error SimError.divisionByZero := by
  refine ⟨rfl, ?_⟩
  have h36 : Rat.sqrt 36 = 6 := by
    rw [show (36 : ℚ) = 6 * 6 by norm_num, Rat.sqrt_eq]
    norm_num
  norm_num [Ball.collide, Ball.collideOutcome, Ball.minimumTranslationDistance, Ball.new2,
    Ball.new3, vec2f.sub, vec2f.dot, vec2f.length, vec2f.zero, vec2f.scale, fdiv, h36,
    ok_bind, error_bind, pure_eq_ok, abs_of_pos]

/-! ## `Ball::collide` on two distinct balls -/

section CollideLemmas

variable {K : Type} [LinearOrderedField K]

theorem normalize_ok (sqrt : K → K) (m : vec2f K) (hlen : sqrt (vec2f.dot m m) ≠ 0) :
    vec2f.normalize sqrt m
      = Except.ok { x := m.x / sqrt (vec2f.dot m m), y := m.y / sqrt (vec2f.dot m m) } := by
  simp only [vec2f.normalize, vec2f.length, fdiv_ok _ hlen, ok_bind, pure_eq_ok]

theorem inverse_mass_total_pos {ma mb : K} (hma : 0 < ma) (hmb : 0 < mb) :
    0 < 1 / ma + 1 / mb :=
  add_pos (one_div_pos.mpr hma) (one_div_pos.mpr hmb)

theorem mtd_near (eps : K) (sqrt : K → K) (a b : Ball K)
    (ht : ¬ |(a.radius + b.radius) * (a.radius + b.radius)
      - vec2f.dot (vec2f.sub a.position b.position) (vec2f.sub a.position b.position)| < eps)
    (hd : |vec2f.length sqrt (vec2f.sub a.position b.position)| ≤ eps)
    (h1 : a.radius + b.radius ≠ 1) :
    Ball.minimumTranslationDistance eps sqrt a b = Except.ok (some
      (vec2f.scale { x := b.radius + a.radius, y := 0 }
        ((a.radius + b.radius - (b.radius + a.radius - 1)) / (b.radius + a.radius - 1)))) := by
  have hne : b.radius + a.radius - 1 ≠ 0 := by
    intro h0
    apply h1
    linear_combination h0
  simp only [Ball.minimumTranslationDistance, ht, if_false, hd, decide_True, if_true,
    fdiv_ok _ hne, ok_bind, pure_eq_ok]

end CollideLemmas

section PassLemmas

variable {K : Type} [LinearOrderedField K]

/-- The values `collide` computes once the minimum translation vector `m` is known
and no division fails. -/
theorem collideOutcome_of_mtd (eps imp : K) (sqrt : K → K) (a b : Ball K) (m : vec2f K)
    (hm : Ball.minimumTranslationDistance eps sqrt a b = Except.ok (some m))
    (hma : a.mass ≠ 0) (hmb : b.mass ≠ 0) (htot : 1 / a.mass + 1 / b.mass ≠ 0)
    (hlen : sqrt (vec2f.dot m m) ≠ 0) :
    Ball.collideOutcome eps imp sqrt a b =
      if vec2f.dot (vec2f.sub a.velocity b.velocity)
          { x := m.x / sqrt (vec2f.dot m m), y := m.y / sqrt (vec2f.dot m m) } > eps then
        Except.ok (CollideOutcome.moved
          (vec2f.add a.position (vec2f.scale m (1 / a.mass / (1 / a.mass + 1 / b.mass))))
          (vec2f.sub b.position (vec2f.scale m (1 / b.mass / (1 / a.mass + 1 / b.mass)))))
      else
        Except.ok (CollideOutcome.bounced
          (vec2f.add a.position (vec2f.scale m (1 / a.mass / (1 / a.mass + 1 / b.mass))))
          (vec2f.sub b.position (vec2f.scale m (1 / b.mass / (1 / a.mass + 1 / b.mass))))
          (vec2f.add a.velocity (vec2f.scale (vec2f.scale (vec2f.scale
            { x := m.x / sqrt (vec2f.dot m m), y := m.y / sqrt (vec2f.dot m m) }
            (-(vec2f.dot (vec2f.sub a.velocity b.velocity)
              { x := m.x / sqrt (vec2f.dot m m), y := m.y / sqrt (vec2f.dot m m) }
              / (1 / a.mass + 1 / b.mass)))) imp) (1 / a.mass)))
          (vec2f.add b.velocity (vec2f.neg (vec2f.scale (vec2f.scale (vec2f.scale
            { x := m.x / sqrt (vec2f.dot m m), y := m.y / sqrt (vec2f.dot m m) }
            (-(vec2f.dot (vec2f.sub a.velocity b.velocity)
              { x := m.x / sqrt (vec2f.dot m m), y := m.y / sqrt (vec2f.dot m m) }
              / (1 / a.mass + 1 / b.mass)))) imp) (1 / b.mass))))) := by
  by_cases hv : vec2f.dot (vec2f.sub a.velocity b.velocity)
      { x := m.x / sqrt (vec2f.dot m m), y := m.y / sqrt (vec2f.dot m m) } > eps
  · simp only [Ball.collideOutcome, hm, ok_bind, fdiv_ok _ hma, fdiv_ok _ hmb, fdiv_ok _ htot,
      normalize_ok sqrt m hlen, hv, if_true, pure_eq_ok]
  · simp only [Ball.collideOutcome, hm, ok_bind, fdiv_ok _ hma, fdiv_ok _ hmb, fdiv_ok _ htot,
      normalize_ok sqrt m hlen, hv, if_false, pure_eq_ok]

theorem sqrt_zero_of_squares (sqrt : K → K) (hsq : ∀ q : K, 0 ≤ q → sqrt (q * q) = q) :
    sqrt 0 = 0 := by
  have h := hsq 0 le_rfl
  rwa [mul_zero] at h

/-- The call `c.collide(c)`: the centre "coincides with itself", the synthetic vector
`(R / (R - 1), 0)` with `R = 2 * radius` is split in two halves, and no impulse
results. -/
theorem collideOutcome_self (eps imp : K) (sqrt : K → K) (c : Ball K) (heps : 0 < eps)
    (hsq : ∀ q : K, 0 ≤ q → sqrt (q * q) = q) (hmass : 0 < c.mass)
    (hr : 1 < c.radius + c.radius)
    (hc : eps < (c.radius + c.radius) * (c.radius + c.radius)) :
    Ball.collideOutcome eps imp sqrt c c = Except.ok (CollideOutcome.bounced
      { x := c.position.x + (c.radius + c.radius) / (c.radius + c.radius - 1) / 2,
        y := c.position.y }
      { x := c.position.x - (c.radius + c.radius) / (c.radius + c.radius - 1) / 2,
        y := c.position.y }
      c.velocity c.velocity) := by
  have hR1 : c.radius + c.radius - 1 ≠ 0 := by linarith
  have hR1pos : 0 < c.radius + c.radius - 1 := by linarith
  have hRpos : 0 < c.radius + c.radius := by linarith
  have hq : 0 < (c.radius + c.radius) / (c.radius + c.radius - 1) := div_pos hRpos hR1pos
  have hdot0 : vec2f.dot (vec2f.sub c.position c.position) (vec2f.sub c.position c.position)
      = 0 := by
    simp only [vec2f.dot, vec2f.sub, sub_self, mul_zero, add_zero]
  have ht : ¬ |(c.radius + c.radius) * (c.radius + c.radius)
      - vec2f.dot (vec2f.sub c.position c.position) (vec2f.sub c.position c.position)| < eps := by
    rw [hdot0, sub_zero, abs_of_pos (lt_trans heps hc)]
    exact not_lt.mpr hc.le
  have hd : |vec2f.length sqrt (vec2f.sub c.position c.position)| ≤ eps := by
    rw [vec2f.length, hdot0, sqrt_zero_of_squares sqrt hsq, abs_zero]
    exact heps.le
  have hmtd := mtd_near eps sqrt c c ht hd (by linarith)
  have hnum : c.radius + c.radius - (c.radius + c.radius - 1) = 1 := by ring
  rw [hnum] at hmtd
  have hm : vec2f.scale ({ x := c.radius + c.radius, y := 0 } : vec2f K)
      (1 / (c.radius + c.radius - 1))
      = { x := (c.radius + c.radius) / (c.radius + c.radius - 1), y := 0 } := by
    ext
    · simp only [vec2f.scale, mul_one_div]
    · simp only [vec2f.scale, zero_mul]
  rw [hm] at hmtd
  have hlen : sqrt (vec2f.dot
      ({ x := (c.radius + c.radius) / (c.radius + c.radius - 1), y := 0 } : vec2f K)
      { x := (c.radius + c.radius) / (c.radius + c.radius - 1), y := 0 })
      = (c.radius + c.radius) / (c.radius + c.radius - 1) := by
    simp only [vec2f.dot, mul_zero, add_zero]
    exact hsq _ hq.le
  have htot : 1 / c.mass + 1 / c.mass ≠ 0 := (inverse_mass_total_pos hmass hmass).ne'
  have hshare : 1 / c.mass / (1 / c.mass + 1 / c.mass) = 1 / 2 := by
    have := hmass.ne'
    field_simp
    ring
  rw [collideOutcome_of_mtd eps imp sqrt c c _ hmtd hmass.ne' hmass.ne' htot
    (by rw [hlen]; exact hq.ne')]
  have hvn : ∀ n : vec2f K, vec2f.dot (vec2f.sub c.velocity c.velocity) n = 0 := by
    intro n
    simp only [vec2f.dot, vec2f.sub, sub_self, zero_mul, add_zero]
  rw [hvn, if_neg (not_lt.mpr heps.le), hshare]
  congr 2
  · ext
    · simp only [vec2f.add, vec2f.scale]
      ring
    · simp only [vec2f.add, vec2f.scale, zero_mul, add_zero]
  · ext
    · simp only [vec2f.sub, vec2f.scale]
      ring
    · simp only [vec2f.sub, vec2f.scale, zero_mul, sub_zero]
  · ext
    · simp only [vec2f.add, vec2f.scale, zero_div, neg_zero, mul_zero, zero_mul, add_zero]
    · simp only [vec2f.add, vec2f.scale, zero_div, neg_zero, mul_zero, zero_mul, add_zero]
  · ext
    · simp only [vec2f.add, vec2f.scale, vec2f.neg, zero_div, neg_zero, mul_zero, zero_mul,
        add_zero]
    · simp only [vec2f.add, vec2f.scale, vec2f.neg, zero_div, neg_zero, mul_zero, zero_mul,
        add_zero]

end PassLemmas

section SingleBall

variable {K : Type} [LinearOrderedField K]

theorem collides_self (eps : K) (c : Ball K)
    (hc : eps < (c.radius + c.radius) * (c.radius + c.radius)) :
    Ball.collides eps c c = true := by
  simp only [Ball.collides, sub_self, mul_zero, add_zero, sub_zero, gt_iff_lt, hc, decide_True]

theorem rect_value (b : Ball K) (i : ℕ) : (Ball.rect b i).value = i := rfl

theorem narrowPhase_single_self (eps imp : K) (sqrt : K → K) (c : Ball K) (f : Bool)
    (heps : 0 < eps) (hsq : ∀ q : K, 0 ≤ q → sqrt (q * q) = q) (hmass : 0 < c.mass)
    (hr : 1 < c.radius + c.radius)
    (hc : eps < (c.radius + c.radius) * (c.radius + c.radius)) :
    narrowPhase eps imp sqrt 0 ([c], f) 0 = Except.ok
      ([Ball.setVelocity c.velocity (Ball.setVelocity c.velocity
        (Ball.setPosition
          { x := c.position.x - (c.radius + c.radius) / (c.radius + c.radius - 1) / 2,
            y := c.position.y }
          (Ball.setPosition
            { x := c.position.x + (c.radius + c.radius) / (c.radius + c.radius - 1) / 2,
              y := c.position.y } c)))], true) := by
  simp only [narrowPhase, List.getElem?_cons_zero, collides_self eps c hc, if_true, collideAt,
    collideOutcome_self eps imp sqrt c heps hsq hmass hr hc, ok_bind, pure_eq_ok,
    List.modify, List.modifyHead, List.modifyTailIdx]

theorem quadtree_pass_single (eps imp : K) (sqrt : K → K)
    (retrieve : List (Rectangle K) → Rectangle K → List (Rectangle K)) (c : Ball K)
    (heps : 0 < eps) (hsq : ∀ q : K, 0 ≤ q → sqrt (q * q) = q) (hmass : 0 < c.mass)
    (hr : 1 < c.radius + c.radius)
    (hc : eps < (c.radius + c.radius) * (c.radius + c.radius))
    (hret : retrieve [Ball.rect c 0] (Ball.rect c 0) = [Ball.rect c 0]) :
    DoQuadtreeCollisionDetection eps imp sqrt retrieve [c] = Except.ok
      [Ball.setInsideCollision true (Ball.setVelocity c.velocity (Ball.setVelocity c.velocity
        (Ball.setPosition
          { x := c.position.x - (c.radius + c.radius) / (c.radius + c.radius - 1) / 2,
            y := c.position.y }
          (Ball.setPosition
            { x := c.position.x + (c.radius + c.radius) / (c.radius + c.radius - 1) / 2,
              y := c.position.y } c))))] := by
  unfold DoQuadtreeCollisionDetection
  simp only [List.enum, List.enumFrom, List.map, List.foldlM_cons, List.foldlM_nil, hret,
    rect_value, narrowPhase_single_self eps imp sqrt c false heps hsq hmass hr hc, ok_bind,
    pure_eq_ok, List.modify, List.modifyHead, List.modifyTailIdx]

theorem simple_pass_single (eps imp : K) (sqrt : K → K) (c : Ball K) :
    DoSimpleCollisionDetection eps imp sqrt [c]
      = Except.ok [Ball.setInsideCollision false c] := by
  simp [DoSimpleCollisionDetection, List.range, List.range.loop, List.range', ok_bind,
    pure_eq_ok, List.modify, List.modifyHead]

end SingleBall

/-- Claim C2 fails on the code.  In a world of one ball (positive mass, diameter above
1 and above `Epsilon` when squared), as soon as `retrieve` hands back the ball's own
box, the quadtree pass calls `collide` on the ball and itself: the ball is flagged
and pushed to the left by `R / (R - 1) / 2` with `R = 2 * radius`.  The brute-force
pass, which starts its inner loop at `i + 1`, leaves the ball where it is and
unflagged. -/
theorem quadtree_pass_differs_from_simple_pass {K : Type} [LinearOrderedField K]
    (eps imp : K) (sqrt : K → K)
    (retrieve : List (Rectangle K) → Rectangle K → List (Rectangle K)) (c : Ball K)
    (heps : 0 < eps) (hsq : ∀ q : K, 0 ≤ q → sqrt (q * q) = q) (hmass : 0 < c.mass)
    (hr : 1 < c.radius + c.radius)
    (hc : eps < (c.radius + c.radius) * (c.radius + c.radius))
    (hret : retrieve [Ball.rect c 0] (Ball.rect c 0) = [Ball.rect c 0]) :
    ∃ q s, DoQuadtreeCollisionDetection eps imp sqrt retrieve [c] = Except.ok [q] ∧
      DoSimpleCollisionDetection eps imp sqrt [c] = Except.ok [s] ∧
      q.isInsideCollision = true ∧ s.isInsideCollision = false ∧
      q.position.x = c.position.x - (c.radius + c.radius) / (c.radius + c.radius - 1) / 2 ∧
      s.position = c.position ∧ q.position.x < s.position.x := by
  refine ⟨_, _, quadtree_pass_single eps imp sqrt retrieve c heps hsq hmass hr hc hret,
    simple_pass_single eps imp sqrt c, rfl, rfl, rfl, rfl, ?_⟩
  have hq : 0 < (c.radius + c.radius) / (c.radius + c.radius - 1) / 2 :=
    div_pos (div_pos (by linarith) (by linarith)) (by norm_num)
  simp only [Ball.setInsideCollision, Ball.setVelocity, Ball.setPosition]
  linarith

/-- A world of one ball of mass 1 and radius 1 at `(10, 10)`: the quadtree pass
moves it to `x = 9` and flags it, the brute-force pass does neither. -/
theorem quadtree_pass_differs_from_simple_pass_witness :
    ∃ q s, DoQuadtreeCollisionDetection (1 / 10000 : ℚ) 1 Rat.sqrt retrieveRoot
        [Ball.new3 1 1 { x := 10, y := 10 }] = Except.ok [q] ∧
      DoSimpleCollisionDetection (1 / 10000 : ℚ) 1 Rat.sqrt
        [Ball.new3 1 1 { x := 10, y := 10 }] = Except.ok [s] ∧
      q.isInsideCollision = true ∧ s.isInsideCollision = false ∧
      q.position.x = 9 ∧ s.position.x = 10 := by
  obtain ⟨q, s, h1, h2, h3, h4, h5, h6, _⟩ :=
    quadtree_pass_differs_from_simple_pass (1 / 10000 : ℚ) 1 Rat.sqrt retrieveRoot
      (Ball.new3 1 1 { x := 10, y := 10 }) (by norm_num)
      (fun q hq => by rw [Rat.sqrt_eq, abs_of_nonneg hq])
      (by norm_num [Ball.new3]) (by norm_num [Ball.new3]) (by norm_num [Ball.new3]) rfl
  refine ⟨q, s, h1, h2, h3, h4, ?_, ?_⟩
  · rw [h5]
    norm_num [Ball.new3]
  · rw [h6]
    rfl

/-! ## The two-ball scenario -/

section TwoBalls

variable {K : Type} [LinearOrderedField K]

end TwoBalls

end BallSimulator
